import Mathlib

/-!
Verification of the video-catalog backend (`src/server.js`).

The repository ships one source file holding two variants of the same
server: a local variant that keeps video metadata in an in-memory array
(`videos`) and raw files under `uploads/`, and a cloud variant that
delegates storage and listing to the Cloudinary provider.  Both variants
fan out catalog-change events over a WebSocket registry (`clients`).

This file shallowly embeds the parts of that program the claims are
about: the metadata record, the bounded Catalog maintenance performed by
the upload handler (`unshift`, cap at 20, `pop` + file unlink), the
delete handler (`findIndex` + `splice`), the GET listing, the broadcast
function together with the WebSocket close/error handlers, and the
cloud-variant upload filter, listing shape and delete handler.

Filesystem effects are modelled by the multiset of filenames present in
the uploads directory; a fallible `fs.unlinkSync` call is modelled by a
boolean oracle saying whether that call throws.  WebSocket sends on an
OPEN socket do not throw in the `ws` library: a transport failure
surfaces as an `error` event on the socket, whose registered handler
removes the socket from `clients`; the embedding keeps those two steps
(the send loop, the handler) separate, as the source does.
-/

namespace VideoHub

/-- One entry of the in-memory `videos` array of the local variant
(`videoData`, `src/server.js` lines 109-117). -/
structure VideoRecord where
  id : String
  name : String
  filename : String
  url : String
  size : Nat
  mimetype : String
  timestamp : String
deriving DecidableEq

/-- What multer hands to the route handler in `req.file`. -/
structure UploadedFile where
  originalname : String
  filename : String
  size : Nat
  mimetype : String
deriving DecidableEq

/-- Mutable state of the local variant: the `videos` array (newest
first) and the set of filenames present in the `uploads/` directory. -/
structure LocalState where
  videos : List VideoRecord
  files : List String
deriving DecidableEq

/-- HTTP responses the handlers produce, by status and payload. -/
inductive Resp where
  /-- `res.json` with `success:true`; the upload route also echoes the
  created record. -/
  | ok (message : String) (video : Option VideoRecord)
  /-- status 400 -/
  | badRequest (error : String)
  /-- status 404 -/
  | notFound (error : String)
  /-- status 500 -/
  | serverError (error : String)
deriving DecidableEq

/-- The two event shapes the server broadcasts. -/
inductive Event where
  | newVideo (video : VideoRecord)
  | videoDeleted (videoId : String)
deriving DecidableEq

/-- The size cap the upload handler enforces on `videos`
(`if (videos.length > 20) videos.pop()`). -/
def maxCatalogSize : Nat := 20

/-- `videos.unshift(videoData)` followed by the conditional
`videos.pop()` of `src/server.js` lines 119-124.  Returns the new array
and the popped (evicted) record, if any. -/
def insertVideo (v : VideoRecord) (videos : List VideoRecord) :
    List VideoRecord × Option VideoRecord :=
  if (v :: videos).length > maxCatalogSize then
    ((v :: videos).dropLast, some ((v :: videos).getLast (List.cons_ne_nil v videos)))
  else
    (v :: videos, none)

/-- `videos.findIndex(v => v.id === videoId)` followed by
`videos.splice(videoIndex, 1)` (`src/server.js` lines 154-169).
Returns the removed record and the remaining array, or `none` when the
id is absent (`findIndex` returned `-1`). -/
def removeVideo (videoId : String) (videos : List VideoRecord) :
    Option (VideoRecord × List VideoRecord) :=
  match videos.findIdx? (fun v => v.id == videoId) with
  | none => none
  | some i => (videos[i]?).map (fun v => (v, videos.eraseIdx i))

/-- `GET /api/videos` of the local variant: `res.json(videos)`
(`src/server.js` lines 97-99). -/
def localGetVideos (st : LocalState) : List VideoRecord :=
  st.videos

/-- The id generation of the local upload handler:
`id: Date.now().toString()` (`src/server.js` line 110). -/
def genVideoId (nowMs : Nat) : String :=
  toString nowMs

/-- The `videoData` object literal of `src/server.js` lines 109-117.
`bodyTimestamp` is `req.body.timestamp`, `nowIso` the value of
`new Date().toISOString()`. -/
def mkVideoData (f : UploadedFile) (bodyTimestamp : Option String)
    (nowMs : Nat) (nowIso : String) : VideoRecord :=
  { id := genVideoId nowMs
    name := f.originalname
    filename := f.filename
    url := "/uploads/" ++ f.filename
    size := f.size
    mimetype := f.mimetype
    timestamp := bodyTimestamp.getD nowIso }

/-- The body of `app.post("/api/upload-video")` (`src/server.js` lines
102-149), run after multer has already stored the file.  `unlinkFails`
says whether the `fs.unlinkSync` call on the evicted file would throw;
when it does, the `catch` block answers 500 `Failed to upload video`,
but the `unshift` and `pop` on `videos` have already happened.
Returns the response, the state after the request, and the events
broadcast during it. -/
def uploadHandler (file : Option UploadedFile) (bodyTimestamp : Option String)
    (nowMs : Nat) (nowIso : String) (unlinkFails : Bool) (st : LocalState) :
    Resp × LocalState × List Event :=
  match file with
  | none => (Resp.badRequest "No video file uploaded", st, [])
  | some f =>
      let videoData := mkVideoData f bodyTimestamp nowMs nowIso
      match insertVideo videoData st.videos with
      | (vs, none) =>
          (Resp.ok "Video uploaded successfully" (some videoData),
           { st with videos := vs }, [Event.newVideo videoData])
      | (vs, some oldVideo) =>
          if oldVideo.filename ∈ st.files then
            if unlinkFails then
              (Resp.serverError "Failed to upload video",
               { st with videos := vs }, [])
            else
              (Resp.ok "Video uploaded successfully" (some videoData),
               { videos := vs, files := st.files.filter (· ≠ oldVideo.filename) },
               [Event.newVideo videoData])
          else
            (Resp.ok "Video uploaded successfully" (some videoData),
             { st with videos := vs }, [Event.newVideo videoData])

/-- The multer `fileFilter` of the local variant (`src/server.js` lines
45-52): accept exactly the files whose MIME type starts with `video/`
(`file.mimetype.startsWith("video/")`, embedded as the prefix test on
the character sequence of the string). -/
def localFileFilter (f : UploadedFile) : Bool :=
  "video/".data.isPrefixOf f.mimetype.data

/-- A multer instance accepts a file when its configured `fileFilter`
does; a multer instance configured without a `fileFilter` accepts every
file (multer default). -/
def multerFilterAccepts (fileFilter : Option (UploadedFile → Bool))
    (f : UploadedFile) : Bool :=
  match fileFilter with
  | some flt => flt f
  | none => true

/-- The local variant configures `fileFilter` (lines 40-53). -/
def localMulterFilter : Option (UploadedFile → Bool) :=
  some localFileFilter

/-- The cloud variant configures multer with storage and `limits` only,
no `fileFilter` (`src/server.js` lines 233-238). -/
def cloudMulterFilter : Option (UploadedFile → Bool) :=
  none

/-- The whole local `POST /api/upload-video` pipeline: multer runs the
`fileFilter`; on acceptance the disk storage writes the file into
`uploads/` and the route handler runs; on rejection the `Error` from the
filter reaches the error middleware (lines 181-189), which answers 500
`Internal server error` because it is not a `MulterError`, and neither
storage nor handler run. -/
def uploadRequest (file : Option UploadedFile) (bodyTimestamp : Option String)
    (nowMs : Nat) (nowIso : String) (unlinkFails : Bool) (st : LocalState) :
    Resp × LocalState × List Event :=
  match file with
  | none => uploadHandler none bodyTimestamp nowMs nowIso unlinkFails st
  | some f =>
      if multerFilterAccepts localMulterFilter f then
        uploadHandler (some f) bodyTimestamp nowMs nowIso unlinkFails
          { st with files := f.filename :: st.files }
      else
        (Resp.serverError "Internal server error", st, [])

/-- The body of `app.delete("/api/videos/:id")` (`src/server.js` lines
152-178).  The handler has no try/catch: when `fs.unlinkSync` throws
(`unlinkFails`), the error middleware answers 500 `Internal server
error` and the `splice` and broadcast never run. -/
def deleteHandler (videoId : String) (unlinkFails : Bool) (st : LocalState) :
    Resp × LocalState × List Event :=
  match removeVideo videoId st.videos with
  | none => (Resp.notFound "Video not found", st, [])
  | some (video, rest) =>
      if video.filename ∈ st.files then
        if unlinkFails then
          (Resp.serverError "Internal server error", st, [])
        else
          (Resp.ok "Video deleted successfully" none,
           { videos := rest, files := st.files.filter (· ≠ video.filename) },
           [Event.videoDeleted videoId])
      else
        (Resp.ok "Video deleted successfully" none,
         { st with videos := rest }, [Event.videoDeleted videoId])

/-- One WebSocket connection as the server sees it.  `cid` is the
object identity, `readyState` the transport state, and `sendFails` an
environment oracle saying whether a send on this socket fails at the
transport level. -/
structure Channel where
  cid : Nat
  readyState : Nat
  sendFails : Bool
deriving DecidableEq

/-- `WebSocket.OPEN` of the `ws` library. -/
def WS_OPEN : Nat := 1

/-- The `broadcast` function (`src/server.js` lines 77-85), threading
the server state through the `forEach` exactly as the loop body runs:
the body reads `client.readyState` and calls `client.send(message)` and
assigns neither `videos` nor `clients`.  The second component collects
the sends performed (each open client paired with the event, already
serialized once before the loop).  In the `ws` library a send on an
OPEN socket does not throw: a transport failure surfaces later as an
`error` event on that socket, so the loop completes for every client. -/
def broadcastRun (videos : List VideoRecord) (clients : List Channel)
    (e : Event) : (List VideoRecord × List Channel) × List (Channel × Event) :=
  clients.foldl
    (fun acc c =>
      if c.readyState = WS_OPEN then (acc.1, acc.2 ++ [(c, e)]) else acc)
    ((videos, clients), [])

/-- The clients to which `broadcast` attempts a send: exactly those
with `readyState === WebSocket.OPEN`. -/
def broadcastAttempts (clients : List Channel) : List Channel :=
  clients.filter (fun c => c.readyState = WS_OPEN)

/-- The attempted sends whose transport fails; each of these sockets
emits an `error` event. -/
def broadcastErrored (clients : List Channel) : List Channel :=
  clients.filter (fun c => c.readyState = WS_OPEN && c.sendFails)

/-- The sends that are delivered. -/
def broadcastDelivered (clients : List Channel) (e : Event) :
    List (Channel × Event) :=
  (clients.filter (fun c => c.readyState = WS_OPEN && !c.sendFails)).map
    (fun c => (c, e))

/-- The `ws.on("error", ...)` handler registered at connection time
(`src/server.js` lines 71-74): `clients.delete(ws)`. -/
def onSocketError (clients : List Channel) (ws : Channel) : List Channel :=
  clients.erase ws

/-- The `ws.on("close", ...)` handler (`src/server.js` lines 66-69):
`clients.delete(ws)`. -/
def onSocketClose (clients : List Channel) (ws : Channel) : List Channel :=
  clients.erase ws

/-- The registry once every `error` event emitted by the failed sends
of one broadcast has been handled by `onSocketError`. -/
def registryAfterBroadcast (clients : List Channel) : List Channel :=
  (broadcastErrored clients).foldl onSocketError clients

/-- Calling `broadcast` never throws to its caller: the loop body only
guards on `readyState` and calls `send`, which on an OPEN socket
reports failure through the `error` event instead of an exception
(`ws` library contract), so the call returns the performed sends
normally. -/
def broadcastTry (videos : List VideoRecord) (clients : List Channel)
    (e : Event) : Except String (List (Channel × Event)) :=
  Except.ok (broadcastRun videos clients e).2

/-! ## Cloud variant (second half of `src/server.js`) -/

/-- One resource as returned by the Cloudinary search API. -/
structure CloudResource where
  public_id : String
  filename : String
  secure_url : String
  bytes : Nat
  format : String
  created_at : String
deriving DecidableEq

/-- What the cloud `GET /api/videos` route exposes for one provider
resource (`src/server.js` lines 282-289). -/
structure CloudVideo where
  id : String
  name : String
  url : String
  size : Nat
  mimetype : String
  timestamp : String
deriving DecidableEq

/-- The field mapping of the cloud listing route. -/
def cloudVideoOf (v : CloudResource) : CloudVideo :=
  { id := v.public_id
    name := v.filename
    url := v.secure_url
    size := v.bytes
    mimetype := "video/" ++ v.format
    timestamp := v.created_at }

/-- `max_results(30)` in the cloud listing query (line 279). -/
def cloudMaxResults : Nat := 30

/-- The cloud `GET /api/videos` body applied to the resources the
provider search returned: `result.resources.map(...)`. -/
def cloudGetVideos (resources : List CloudResource) : List CloudVideo :=
  resources.map cloudVideoOf

/-- The body of the cloud `app.delete("/api/videos/:id(*)")`
(`src/server.js` lines 333-355).  `destroyResult` is
`result.result` of `cloudinary.uploader.destroy`, or `none` when that
call itself threw.  Returns the response and the events broadcast. -/
def cloudDeleteHandler (destroyResult : Option String) (videoId : String) :
    Resp × List Event :=
  match destroyResult with
  | none => (Resp.serverError "Failed to delete video", [])
  | some r =>
      if r == "ok" || r == "not found" then
        (Resp.ok "Video deleted successfully" none, [Event.videoDeleted videoId])
      else
        (Resp.serverError "Failed to delete video", [])

/-! ## JSON shape of the listing elements

`res.json` serializes a record field by field; these functions list the
key/value pairs of the serialized object, in declaration order. -/

/-- A JSON scalar as produced for the record fields. -/
inductive JsonVal where
  | str (s : String)
  | num (n : Nat)
deriving DecidableEq

/-- The serialized shape of one local `videoData` object: the object
literal of lines 109-117 has exactly these seven keys. -/
def videoJson (v : VideoRecord) : List (String × JsonVal) :=
  [("id", JsonVal.str v.id),
   ("name", JsonVal.str v.name),
   ("filename", JsonVal.str v.filename),
   ("url", JsonVal.str v.url),
   ("size", JsonVal.num v.size),
   ("mimetype", JsonVal.str v.mimetype),
   ("timestamp", JsonVal.str v.timestamp)]

/-- The serialized shape of one cloud listing element (lines 282-289):
exactly these six keys. -/
def cloudVideoJson (v : CloudVideo) : List (String × JsonVal) :=
  [("id", JsonVal.str v.id),
   ("name", JsonVal.str v.name),
   ("url", JsonVal.str v.url),
   ("size", JsonVal.num v.size),
   ("mimetype", JsonVal.str v.mimetype),
   ("timestamp", JsonVal.str v.timestamp)]

/-! ## Request traces of the local variant -/

/-- One request against the local variant, with the environment choices
(time, filesystem behaviour) it was served under. -/
inductive Op where
  | upload (file : Option UploadedFile) (bodyTimestamp : Option String)
      (nowMs : Nat) (nowIso : String) (unlinkFails : Bool)
  | delete (videoId : String) (unlinkFails : Bool)

/-- State transformer of one request. -/
def applyOp (st : LocalState) (op : Op) : LocalState :=
  match op with
  | Op.upload f ts now iso uf => (uploadRequest f ts now iso uf st).2.1
  | Op.delete id uf => (deleteHandler id uf st).2.1

/-- The empty initial state: no metadata survives a restart and the
uploads directory is created empty. -/
def initialState : LocalState :=
  { videos := [], files := [] }

/-- The state after serving a sequence of requests from startup. -/
def runOps (ops : List Op) : LocalState :=
  ops.foldl applyOp initialState

/-- A bare sequence of Catalog insertions (the metadata part of
consecutive uploads), starting from catalog `c0`. -/
def insertAll (c0 : List VideoRecord) (rs : List VideoRecord) : List VideoRecord :=
  rs.foldl (fun c r => (insertVideo r c).1) c0

/-! ## Concrete sample inputs (used by witnesses and counterexamples) -/

/-- A concrete metadata record, indexed for building catalogs. -/
def sampleRecord (i : Nat) : VideoRecord :=
  { id := toString i
    name := "video" ++ toString i
    filename := "f" ++ toString i ++ ".mp4"
    url := "/uploads/f" ++ toString i ++ ".mp4"
    size := i
    mimetype := "video/mp4"
    timestamp := "2026-01-01T00:00:00Z" }

/-- A concrete valid video upload. -/
def sampleFile (n : String) : UploadedFile :=
  { originalname := n
    filename := n ++ ".mp4"
    size := 10
    mimetype := "video/mp4" }

/-- A concrete non-video upload. -/
def textPlainFile : UploadedFile :=
  { originalname := "notes.txt"
    filename := "notes.txt"
    size := 10
    mimetype := "text/plain" }

/-- An open channel whose sends succeed. -/
def openChannel (i : Nat) : Channel :=
  { cid := i, readyState := WS_OPEN, sendFails := false }

/-- An open channel whose sends fail at the transport level. -/
def failingChannel (i : Nat) : Channel :=
  { cid := i, readyState := WS_OPEN, sendFails := true }

/-- A channel in the CLOSED transport state. -/
def closedChannel (i : Nat) : Channel :=
  { cid := i, readyState := 3, sendFails := false }

/-- The first `n` sample records, in insertion order. -/
def sampleUploads (n : Nat) : List VideoRecord :=
  (List.range n).map sampleRecord

/-- A state holding a full catalog of 20 records whose oldest record
still has its file on disk. -/
def fullState : LocalState :=
  { videos := ((List.range maxCatalogSize).reverse).map sampleRecord
    files := ["f0.mp4"] }

/-- A concrete provider resource for the cloud listing. -/
def sampleResource : CloudResource :=
  { public_id := "harsh-resource-hub-videos/abc"
    filename := "clip"
    secure_url := "https://res.example.com/clip.mp4"
    bytes := 5
    format := "mp4"
    created_at := "2026-01-01T00:00:00Z" }

/-! ## Catalog lemmas -/

lemma take_append_take {α : Type} (n : Nat) (l t : List α) :
    (l ++ t.take n).take n = (l ++ t).take n := by
  rw [List.take_append_eq_append_take, List.take_append_eq_append_take,
    List.take_take]
  have h : min (n - l.length) n = n - l.length :=
    Nat.min_eq_left (Nat.sub_le _ _)
  rw [h]

lemma insertVideo_fst_eq_take (v : VideoRecord) (c : List VideoRecord)
    (h : c.length ≤ maxCatalogSize) :
    (insertVideo v c).1 = (v :: c).take maxCatalogSize := by
  unfold insertVideo
  split
  · rename_i hgt
    simp only
    rw [List.dropLast_eq_take]
    congr 1
    simp only [List.length_cons, gt_iff_lt] at hgt ⊢
    omega
  · rename_i hle
    simp only
    rw [List.take_of_length_le]
    simp only [List.length_cons, gt_iff_lt, not_lt] at hle
    exact hle

lemma insertVideo_fst_length_le (v : VideoRecord) (c : List VideoRecord)
    (h : c.length ≤ maxCatalogSize) :
    (insertVideo v c).1.length ≤ maxCatalogSize := by
  rw [insertVideo_fst_eq_take v c h, List.length_take]
  exact Nat.min_le_left _ _

lemma insertAll_eq (rs : List VideoRecord) :
    ∀ c0 : List VideoRecord, c0.length ≤ maxCatalogSize →
      insertAll c0 rs = (rs.reverse ++ c0).take maxCatalogSize := by
  induction rs with
  | nil =>
      intro c0 h
      simp only [insertAll, List.foldl_nil, List.reverse_nil, List.nil_append]
      exact (List.take_of_length_le h).symm
  | cons r rs ih =>
      intro c0 h
      have h1 : (insertVideo r c0).1 = (r :: c0).take maxCatalogSize :=
        insertVideo_fst_eq_take r c0 h
      have h2 : ((r :: c0).take maxCatalogSize).length ≤ maxCatalogSize := by
        rw [List.length_take]; exact Nat.min_le_left _ _
      calc insertAll c0 (r :: rs)
          = insertAll ((insertVideo r c0).1) rs := rfl
        _ = insertAll ((r :: c0).take maxCatalogSize) rs := by rw [h1]
        _ = (rs.reverse ++ (r :: c0).take maxCatalogSize).take maxCatalogSize :=
            ih _ h2
        _ = (rs.reverse ++ (r :: c0)).take maxCatalogSize :=
            take_append_take _ _ _
        _ = ((r :: rs).reverse ++ c0).take maxCatalogSize := by
            rw [List.reverse_cons, List.append_assoc, List.singleton_append]

lemma uploadHandler_videos (f : UploadedFile) (ts : Option String)
    (now : Nat) (iso : String) (uf : Bool) (st : LocalState) :
    ((uploadHandler (some f) ts now iso uf st).2.1).videos =
      (insertVideo (mkVideoData f ts now iso) st.videos).1 := by
  unfold uploadHandler
  rcases h : insertVideo (mkVideoData f ts now iso) st.videos with ⟨vs, _ | old⟩
  · simp [h]
  · simp only [h]
    split
    · split <;> rfl
    · rfl

lemma uploadRequest_videos_le (f : Option UploadedFile) (ts : Option String)
    (now : Nat) (iso : String) (uf : Bool) (st : LocalState)
    (h : st.videos.length ≤ maxCatalogSize) :
    ((uploadRequest f ts now iso uf st).2.1).videos.length ≤ maxCatalogSize := by
  cases f with
  | none => exact h
  | some f =>
      simp only [uploadRequest]
      split
      · rw [uploadHandler_videos]
        exact insertVideo_fst_length_le _ _ h
      · exact h

lemma removeVideo_some_length (id : String) (videos : List VideoRecord)
    (v : VideoRecord) (rest : List VideoRecord)
    (h : removeVideo id videos = some (v, rest)) :
    rest.length + 1 = videos.length := by
  unfold removeVideo at h
  cases hf : videos.findIdx? (fun v => v.id == id) with
  | none => rw [hf] at h; cases h
  | some i =>
      rw [hf] at h
      rcases Option.map_eq_some'.mp h with ⟨w, hw, heq⟩
      cases heq
      have hi : i < videos.length := (List.getElem?_eq_some.mp hw).1
      rw [List.length_eraseIdx, if_pos hi]
      omega

lemma deleteHandler_videos_le (id : String) (uf : Bool) (st : LocalState)
    (h : st.videos.length ≤ maxCatalogSize) :
    ((deleteHandler id uf st).2.1).videos.length ≤ maxCatalogSize := by
  unfold deleteHandler
  rcases hr : removeVideo id st.videos with _ | ⟨v, rest⟩
  · simpa
  · have hlen := removeVideo_some_length id st.videos v rest hr
    simp only
    split
    · split
      · simpa
      · simp only; omega
    · simp only; omega

lemma runOps_videos_le (ops : List Op) :
    ((runOps ops).videos).length ≤ maxCatalogSize := by
  suffices h : ∀ (ops : List Op) (st : LocalState),
      st.videos.length ≤ maxCatalogSize →
      ((ops.foldl applyOp st).videos).length ≤ maxCatalogSize by
    exact h ops initialState (by simp [initialState])
  intro ops
  induction ops with
  | nil => intro st h; simpa
  | cons op ops ih =>
      intro st h
      rw [List.foldl_cons]
      apply ih
      cases op with
      | upload f ts now iso uf => exact uploadRequest_videos_le f ts now iso uf st h
      | delete id uf => exact deleteHandler_videos_le id uf st h

/-- Claim C1: for every sequence of more than 20 insertions into the
local Catalog (each insertion putting the new record at the front),
`list()` afterwards returns exactly 20 records, namely the 20
most-recently-inserted ones in insertion order newest first; and over
every request trace the Catalog never holds more than 20 records at
rest. -/
theorem uploads_keep_latest_twenty (rs : List VideoRecord) (fs : List String)
    (h : maxCatalogSize < rs.length) :
    localGetVideos { videos := insertAll [] rs, files := fs } =
      rs.reverse.take maxCatalogSize ∧
    (insertAll [] rs).length = maxCatalogSize ∧
    ∀ ops : List Op, ((runOps ops).videos).length ≤ maxCatalogSize := by
  have base := insertAll_eq rs [] (by simp [maxCatalogSize])
  rw [List.append_nil] at base
  refine ⟨?_, ?_, fun ops => runOps_videos_le ops⟩
  · simpa [localGetVideos] using base
  · rw [base, List.length_take, List.length_reverse]
    omega

/-- Witness for `uploads_keep_latest_twenty` at a concrete run of 25
insertions. -/
theorem uploads_keep_latest_twenty_witness :
    localGetVideos ⟨insertAll [] (sampleUploads 25), []⟩ =
      ((sampleUploads 25).reverse).take maxCatalogSize ∧
    (insertAll [] (sampleUploads 25)).length = maxCatalogSize ∧
    ∀ ops : List Op, ((runOps ops).videos).length ≤ maxCatalogSize :=
  uploads_keep_latest_twenty (sampleUploads 25) []
    (by simp [sampleUploads, maxCatalogSize])

lemma not_mem_filter_ne_self (x : String) (l : List String) :
    x ∉ l.filter (· ≠ x) := by
  intro hin
  have := List.of_mem_filter hin
  simp at this

lemma uploadHandler_evict_mem (f : UploadedFile) (ts : Option String)
    (now : Nat) (iso : String) (st : LocalState)
    (vs : List VideoRecord) (evicted : VideoRecord)
    (hins : insertVideo (mkVideoData f ts now iso) st.videos = (vs, some evicted))
    (hmem : evicted.filename ∈ st.files) :
    uploadHandler (some f) ts now iso false st =
      (Resp.ok "Video uploaded successfully" (some (mkVideoData f ts now iso)),
       ⟨vs, st.files.filter (· ≠ evicted.filename)⟩,
       [Event.newVideo (mkVideoData f ts now iso)]) := by
  simp only [uploadHandler]
  rw [hins]
  simp [hmem]

lemma uploadHandler_evict_notmem (f : UploadedFile) (ts : Option String)
    (now : Nat) (iso : String) (st : LocalState)
    (vs : List VideoRecord) (evicted : VideoRecord)
    (hins : insertVideo (mkVideoData f ts now iso) st.videos = (vs, some evicted))
    (hmem : evicted.filename ∉ st.files) :
    uploadHandler (some f) ts now iso false st =
      (Resp.ok "Video uploaded successfully" (some (mkVideoData f ts now iso)),
       ⟨vs, st.files⟩,
       [Event.newVideo (mkVideoData f ts now iso)]) := by
  simp only [uploadHandler]
  rw [hins]
  simp [hmem]

lemma insertVideo_of_full (v : VideoRecord) (c : List VideoRecord)
    (h : maxCatalogSize ≤ c.length) :
    (insertVideo v c).1 = (v :: c).dropLast ∧
    (insertVideo v c).2 = c.getLast? := by
  have hc : c ≠ [] := by
    intro e
    rw [e] at h
    simp [maxCatalogSize] at h
  have hgt : (v :: c).length > maxCatalogSize := by
    simp only [List.length_cons]
    omega
  unfold insertVideo
  rw [if_pos hgt]
  refine ⟨rfl, ?_⟩
  simp only
  rw [List.getLast_cons hc, List.getLast?_eq_getLast c hc]

/-- Claim C2: an insertion that makes the Catalog exceed 20 records
evicts exactly one record, the oldest (the tail of the pre-insertion
catalog), reported to the caller exactly once as the second component;
an insertion that does not exceed the cap evicts nothing, and insertion
always succeeds (it is total and returns the updated catalog in every
case).  On the upload path, the stored file of the evicted record is no
longer present after the request (the handler unlinks it). -/
theorem insert_evicts_exactly_oldest (v : VideoRecord) (c : List VideoRecord) :
    (maxCatalogSize ≤ c.length →
      (insertVideo v c).2 = c.getLast? ∧
      (insertVideo v c).1 ++ (insertVideo v c).2.toList = v :: c ∧
      (insertVideo v c).1.length + 1 = (v :: c).length)
    ∧ (c.length < maxCatalogSize → insertVideo v c = (v :: c, none))
    ∧ (∀ (f : UploadedFile) (ts : Option String) (now : Nat) (iso : String)
        (st : LocalState) (evicted : VideoRecord),
        (insertVideo (mkVideoData f ts now iso) st.videos).2 = some evicted →
        localFileFilter f = true →
        evicted.filename ∉ ((uploadRequest (some f) ts now iso false st).2.1).files ∧
        (uploadRequest (some f) ts now iso false st).1 =
          Resp.ok "Video uploaded successfully" (some (mkVideoData f ts now iso))) := by
  refine ⟨?_, ?_, ?_⟩
  · intro h
    obtain ⟨h1, h2⟩ := insertVideo_of_full v c h
    have hc : c ≠ [] := by
      intro e
      rw [e] at h
      simp [maxCatalogSize] at h
    refine ⟨h2, ?_, ?_⟩
    · rw [h1, h2, List.getLast?_eq_getLast c hc]
      simp only [Option.toList_some]
      rw [← List.getLast_cons (a := v) hc]
      exact List.dropLast_append_getLast (List.cons_ne_nil v c)
    · rw [h1]
      simp only [List.length_dropLast, List.length_cons]
      omega
  · intro h
    unfold insertVideo
    rw [if_neg]
    simp only [List.length_cons, gt_iff_lt, not_lt]
    omega
  · intro f ts now iso st evicted hev hmime
    simp only [uploadRequest, multerFilterAccepts, localMulterFilter, hmime,
      if_pos]
    rcases hins : insertVideo (mkVideoData f ts now iso) st.videos with ⟨vs, ev⟩
    rw [hins] at hev
    simp only at hev
    subst hev
    by_cases hmem : evicted.filename ∈ f.filename :: st.files
    · rw [uploadHandler_evict_mem f ts now iso ⟨st.videos, f.filename :: st.files⟩
        vs evicted hins hmem]
      exact ⟨not_mem_filter_ne_self _ _, rfl⟩
    · rw [uploadHandler_evict_notmem f ts now iso
        ⟨st.videos, f.filename :: st.files⟩ vs evicted hins hmem]
      exact ⟨hmem, rfl⟩

/-- Witness for `insert_evicts_exactly_oldest`: a full catalog of 20
records evicts its oldest on the 21st insert and the file of the evicted record is gone afterwards; a 1-element catalog evicts nothing. -/
theorem insert_evicts_exactly_oldest_witness :
    ((insertVideo (sampleRecord 100) fullState.videos).2 =
        fullState.videos.getLast? ∧
      (insertVideo (sampleRecord 100) fullState.videos).1 ++
          (insertVideo (sampleRecord 100) fullState.videos).2.toList =
        sampleRecord 100 :: fullState.videos ∧
      (insertVideo (sampleRecord 100) fullState.videos).1.length + 1 =
        (sampleRecord 100 :: fullState.videos).length) ∧
    insertVideo (sampleRecord 100) [sampleRecord 0] =
      (sampleRecord 100 :: [sampleRecord 0], none) ∧
    ((sampleRecord 0).filename ∉
        ((uploadRequest (some (sampleFile "new")) none 999 "iso" false
          fullState).2.1).files ∧
      (uploadRequest (some (sampleFile "new")) none 999 "iso" false
          fullState).1 =
        Resp.ok "Video uploaded successfully"
          (some (mkVideoData (sampleFile "new") none 999 "iso"))) := by
  refine ⟨(insert_evicts_exactly_oldest (sampleRecord 100) fullState.videos).1
      (by decide), ?_, ?_⟩
  · exact (insert_evicts_exactly_oldest (sampleRecord 100) [sampleRecord 0]).2.1
      (by decide)
  · exact (insert_evicts_exactly_oldest (sampleRecord 100) fullState.videos).2.2
      (sampleFile "new") none 999 "iso" fullState (sampleRecord 0)
      (by decide) (by decide)

/-! ## Deletion lemmas -/

lemma removeVideo_eq_none (id : String) (l : List VideoRecord)
    (h : ∀ v ∈ l, v.id ≠ id) : removeVideo id l = none := by
  unfold removeVideo
  rw [List.findIdx?_eq_none_iff.mpr]
  intro x hx
  simpa using h x hx

lemma removeVideo_cons_pos (id : String) (a : VideoRecord)
    (t : List VideoRecord) (h : a.id = id) :
    removeVideo id (a :: t) = some (a, t) := by
  unfold removeVideo
  rw [List.findIdx?_cons, if_pos (by simpa using h)]
  simp

lemma removeVideo_cons_neg (id : String) (a : VideoRecord)
    (t : List VideoRecord) (h : a.id ≠ id) :
    removeVideo id (a :: t) =
      (removeVideo id t).map (fun p => (p.1, a :: p.2)) := by
  unfold removeVideo
  rw [List.findIdx?_cons, if_neg (by simpa using h), List.findIdx?_succ]
  cases hf : t.findIdx? (fun v => v.id == id) with
  | none => rfl
  | some i =>
      simp only [Option.map_some', Option.map_map]
      cases hg : t[i]? with
      | none => simp [List.getElem?_cons_succ, hg]
      | some w => simp [List.getElem?_cons_succ, hg, Function.comp]

lemma removeVideo_append (id : String) (l1 : List VideoRecord)
    (v : VideoRecord) (l2 : List VideoRecord)
    (h1 : ∀ w ∈ l1, w.id ≠ id) (hv : v.id = id) :
    removeVideo id (l1 ++ v :: l2) = some (v, l1 ++ l2) := by
  induction l1 with
  | nil => simpa using removeVideo_cons_pos id v l2 hv
  | cons a t ih =>
      rw [List.cons_append,
        removeVideo_cons_neg id a _ (h1 a (List.mem_cons_self a t)),
        ih (fun w hw => h1 w (List.mem_cons_of_mem a hw))]
      rfl

lemma exists_first_decomp (id : String) (l : List VideoRecord)
    (hex : ∃ v ∈ l, v.id = id) :
    ∃ l1 v l2, l = l1 ++ v :: l2 ∧ v.id = id ∧ ∀ w ∈ l1, w.id ≠ id := by
  induction l with
  | nil =>
      rcases hex with ⟨v, hv, _⟩
      cases hv
  | cons a t ih =>
      by_cases ha : a.id = id
      · exact ⟨[], a, t, rfl, ha, by simp⟩
      · have hex' : ∃ v ∈ t, v.id = id := by
          rcases hex with ⟨v, hv, hid⟩
          rcases List.mem_cons.mp hv with rfl | hvt
          · exact absurd hid ha
          · exact ⟨v, hvt, hid⟩
        rcases ih hex' with ⟨l1, v, l2, heq, hid, hne⟩
        refine ⟨a :: l1, v, l2, by rw [heq, List.cons_append], hid, ?_⟩
        intro w hw
        rcases List.mem_cons.mp hw with rfl | hwl
        · exact ha
        · exact hne w hwl

lemma deleteHandler_of_none (id : String) (uf : Bool) (st : LocalState)
    (h : removeVideo id st.videos = none) :
    deleteHandler id uf st = (Resp.notFound "Video not found", st, []) := by
  unfold deleteHandler
  rw [h]

lemma deleteHandler_of_some (id : String) (st : LocalState)
    (v : VideoRecord) (rest : List VideoRecord)
    (h : removeVideo id st.videos = some (v, rest)) :
    (deleteHandler id false st).1 = Resp.ok "Video deleted successfully" none ∧
    ((deleteHandler id false st).2.1).videos = rest ∧
    (deleteHandler id false st).2.2 = [Event.videoDeleted id] := by
  unfold deleteHandler
  rw [h]
  by_cases hmem : v.filename ∈ st.files
  · simp [hmem]
  · simp [hmem]

/-- Claim C3: `remove(id)` with `id` absent answers 404 `Video not
found` and leaves the catalog unchanged; with `id` present it removes
exactly the (first) record carrying that id, shrinking the catalog by
one and preserving the relative order of the remaining records, and
returns the removed record (the 200 path then reports success and
broadcasts the deletion). -/
theorem remove_present_absent_spec (videoId : String) (st : LocalState) :
    ((∀ v ∈ st.videos, v.id ≠ videoId) →
      removeVideo videoId st.videos = none ∧
      ∀ uf, deleteHandler videoId uf st = (Resp.notFound "Video not found", st, []))
    ∧ ((∃ v ∈ st.videos, v.id = videoId) →
      ∃ v0 l1 l2,
        st.videos = l1 ++ v0 :: l2 ∧ v0.id = videoId ∧
        (∀ w ∈ l1, w.id ≠ videoId) ∧
        removeVideo videoId st.videos = some (v0, l1 ++ l2) ∧
        (l1 ++ l2).length + 1 = st.videos.length ∧
        (l1 ++ l2).Sublist st.videos ∧
        ((deleteHandler videoId false st).2.1).videos = l1 ++ l2 ∧
        (deleteHandler videoId false st).1 =
          Resp.ok "Video deleted successfully" none) := by
  constructor
  · intro h
    have hn := removeVideo_eq_none videoId st.videos h
    exact ⟨hn, fun uf => deleteHandler_of_none videoId uf st hn⟩
  · intro hex
    rcases exists_first_decomp videoId st.videos hex with ⟨l1, v0, l2, heq, hid, hne⟩
    have hrm : removeVideo videoId st.videos = some (v0, l1 ++ l2) := by
      rw [heq]
      exact removeVideo_append videoId l1 v0 l2 hne hid
    rcases deleteHandler_of_some videoId st v0 (l1 ++ l2) hrm with ⟨h1, h2, _⟩
    refine ⟨v0, l1, l2, heq, hid, hne, hrm, ?_, ?_, h2, h1⟩
    · rw [heq]
      simp only [List.length_append, List.length_cons]
      omega
    · rw [heq]
      exact List.Sublist.append_left (List.sublist_cons_self v0 l2) l1

/-- Witness for `remove_present_absent_spec`: the absent branch at id
`9` and the present branch at id `1` on a concrete 2-record catalog. -/
theorem remove_present_absent_spec_witness :
    (removeVideo "9" [sampleRecord 1, sampleRecord 2] = none ∧
      deleteHandler "9" false ⟨[sampleRecord 1, sampleRecord 2], []⟩ =
        (Resp.notFound "Video not found",
         ⟨[sampleRecord 1, sampleRecord 2], []⟩, [])) ∧
    ∃ v0 l1 l2,
      [sampleRecord 1, sampleRecord 2] = l1 ++ v0 :: l2 ∧ v0.id = "1" ∧
      (∀ w ∈ l1, w.id ≠ "1") ∧
      removeVideo "1" [sampleRecord 1, sampleRecord 2] = some (v0, l1 ++ l2) ∧
      (l1 ++ l2).length + 1 = [sampleRecord 1, sampleRecord 2].length ∧
      (l1 ++ l2).Sublist [sampleRecord 1, sampleRecord 2] ∧
      ((deleteHandler "1" false
          ⟨[sampleRecord 1, sampleRecord 2], []⟩).2.1).videos = l1 ++ l2 ∧
      (deleteHandler "1" false ⟨[sampleRecord 1, sampleRecord 2], []⟩).1 =
        Resp.ok "Video deleted successfully" none := by
  constructor
  · have h := (remove_present_absent_spec "9"
      ⟨[sampleRecord 1, sampleRecord 2], []⟩).1 (by decide)
    exact ⟨h.1, h.2 false⟩
  · exact (remove_present_absent_spec "1"
      ⟨[sampleRecord 1, sampleRecord 2], []⟩).2 (by decide)

/-! ## Broadcast lemmas -/

lemma broadcastRun_fst (e : Event) (clients : List Channel) :
    ∀ init : (List VideoRecord × List Channel) × List (Channel × Event),
      (clients.foldl
        (fun acc c =>
          if c.readyState = WS_OPEN then (acc.1, acc.2 ++ [(c, e)]) else acc)
        init).1 = init.1 := by
  induction clients with
  | nil => intro init; rfl
  | cons c cs ih =>
      intro init
      rw [List.foldl_cons]
      rw [ih]
      split <;> rfl

lemma broadcastRun_snd (e : Event) (clients : List Channel) :
    ∀ init : (List VideoRecord × List Channel) × List (Channel × Event),
      (clients.foldl
        (fun acc c =>
          if c.readyState = WS_OPEN then (acc.1, acc.2 ++ [(c, e)]) else acc)
        init).2 = init.2 ++ (broadcastAttempts clients).map (fun c => (c, e)) := by
  induction clients with
  | nil => intro init; simp [broadcastAttempts]
  | cons c cs ih =>
      intro init
      rw [List.foldl_cons]
      by_cases hc : c.readyState = WS_OPEN
      · rw [if_pos hc, ih]
        simp [broadcastAttempts, hc]
      · rw [if_neg hc, ih]
        simp [broadcastAttempts, hc]

lemma not_mem_erase_of_not_mem (c x : Channel) (l : List Channel)
    (h : c ∉ l) : c ∉ l.erase x := by
  intro hin
  exact h (List.mem_of_mem_erase hin)

lemma not_mem_foldl_erase_of_not_mem (c : Channel) (targets : List Channel) :
    ∀ l : List Channel, c ∉ l → c ∉ targets.foldl List.erase l := by
  induction targets with
  | nil => intro l h; exact h
  | cons t ts ih =>
      intro l h
      rw [List.foldl_cons]
      exact ih (l.erase t) (not_mem_erase_of_not_mem c t l h)

lemma not_mem_foldl_erase (c : Channel) (targets : List Channel) :
    ∀ l : List Channel, l.Nodup → c ∈ targets → c ∉ targets.foldl List.erase l := by
  induction targets with
  | nil => intro l _ hc; cases hc
  | cons t ts ih =>
      intro l hnd hc
      rw [List.foldl_cons]
      rcases List.mem_cons.mp hc with rfl | hc'
      · exact not_mem_foldl_erase_of_not_mem c ts (l.erase c)
          (fun hin => ((List.Nodup.mem_erase_iff hnd).mp hin).1 rfl)
      · exact ih (l.erase t) (List.Nodup.erase t hnd) hc'

lemma mem_foldl_erase_of_ne (c : Channel) (targets : List Channel) :
    ∀ l : List Channel, c ∈ l → c ∉ targets → c ∈ targets.foldl List.erase l := by
  induction targets with
  | nil => intro l h _; exact h
  | cons t ts ih =>
      intro l h hnt
      rw [List.foldl_cons]
      have hct : c ≠ t := fun e => hnt (e ▸ List.mem_cons_self t ts)
      exact ih (l.erase t) ((List.mem_erase_of_ne hct).mpr h)
        (fun hin => hnt (List.mem_cons_of_mem t hin))

/-- Claim C4: a broadcast during which the send of a registered channel
fails results in that channel being deregistered before the next
delivery attempt (its `error` event handler runs `clients.delete(ws)`),
and the broadcast call raises no error to the triggering caller (sends
on an OPEN socket surface transport failures as `error` events, never
as exceptions); a broadcast over an empty registry completes without
error and without deliveries. -/
theorem broadcast_failing_channel_deregistered :
    (∀ (clients : List Channel) (c : Channel), clients.Nodup →
      c ∈ clients → c.readyState = WS_OPEN → c.sendFails = true →
      c ∉ registryAfterBroadcast clients ∧
      c ∉ broadcastAttempts (registryAfterBroadcast clients))
    ∧ (∀ (videos : List VideoRecord) (clients : List Channel) (e : Event),
        (broadcastTry videos clients e).isOk = true)
    ∧ (∀ (videos : List VideoRecord) (e : Event),
        broadcastRun videos [] e = ((videos, []), []) ∧
        registryAfterBroadcast [] = []) := by
  refine ⟨?_, fun videos clients e => rfl, fun videos e => ⟨rfl, rfl⟩⟩
  intro clients c hnd hc hopen hfail
  have hcerr : c ∈ broadcastErrored clients := by
    simp [broadcastErrored, List.mem_filter, hc, hopen, hfail]
  have hout : c ∉ registryAfterBroadcast clients := by
    unfold registryAfterBroadcast
    have : (broadcastErrored clients).foldl onSocketError clients =
        (broadcastErrored clients).foldl List.erase clients := rfl
    rw [this]
    exact not_mem_foldl_erase c (broadcastErrored clients) clients hnd hcerr
  refine ⟨hout, ?_⟩
  intro hin
  exact hout (List.mem_of_mem_filter hin)

/-- Witness for `broadcast_failing_channel_deregistered`: a registry
holding one open-but-failing channel and one healthy channel. -/
theorem broadcast_failing_channel_deregistered_witness :
    (failingChannel 1 ∉ registryAfterBroadcast [failingChannel 1, openChannel 2] ∧
      failingChannel 1 ∉
        broadcastAttempts (registryAfterBroadcast [failingChannel 1, openChannel 2])) ∧
    (broadcastTry [] [failingChannel 1, openChannel 2]
        (Event.videoDeleted "x")).isOk = true ∧
    broadcastRun [] [] (Event.videoDeleted "x") = (([], []), []) ∧
    registryAfterBroadcast [] = [] := by
  refine ⟨?_, ?_, ?_, ?_⟩
  · exact (broadcast_failing_channel_deregistered).1
      [failingChannel 1, openChannel 2] (failingChannel 1)
      (by decide) (by decide) (by decide) (by decide)
  · exact (broadcast_failing_channel_deregistered).2.1 [] _ _
  · exact ((broadcast_failing_channel_deregistered).2.2 [] _).1
  · exact ((broadcast_failing_channel_deregistered).2.2 []
      (Event.videoDeleted "x")).2

/-- Claim C10: `broadcast(event)` modifies neither the channel
registry nor the Catalog: the state threaded through the send loop
comes out exactly as it went in; channels in a non-open state are
skipped (no send is attempted to them) but remain registered even
after the error events of the broadcast are handled; a channel is
removed from the registry only by the close/error handlers, i.e. only
channels whose send errored can be missing afterwards. -/
theorem broadcast_frame_preserving (videos : List VideoRecord)
    (clients : List Channel) (e : Event) :
    (broadcastRun videos clients e).1 = (videos, clients) ∧
    (∀ c ∈ clients, c.readyState ≠ WS_OPEN →
      (∀ d ∈ (broadcastRun videos clients e).2, d.1 ≠ c) ∧
      c ∈ registryAfterBroadcast clients) ∧
    (∀ c ∈ clients, c ∉ registryAfterBroadcast clients →
      c ∈ broadcastErrored clients) := by
  refine ⟨broadcastRun_fst e clients _, ?_, ?_⟩
  · intro c hc hstate
    constructor
    · intro d hd
      have h2 := broadcastRun_snd e clients ((videos, clients), [])
      unfold broadcastRun at hd
      rw [h2, List.nil_append] at hd
      rcases List.mem_map.mp hd with ⟨c', hc', rfl⟩
      intro he
      simp only at he
      have hop : c'.readyState = WS_OPEN :=
        of_decide_eq_true (List.mem_filter.mp hc').2
      exact hstate (he ▸ hop)
    · unfold registryAfterBroadcast
      apply mem_foldl_erase_of_ne c (broadcastErrored clients) clients hc
      intro hin
      have := (List.mem_filter.mp hin).2
      simp only [Bool.and_eq_true, decide_eq_true_eq] at this
      exact hstate this.1
  · intro c hc hout
    by_contra hne
    exact hout (mem_foldl_erase_of_ne c (broadcastErrored clients) clients hc hne)

/-- Witness for `broadcast_frame_preserving`: one closed and one open
channel; the closed one gets no send and stays registered. -/
theorem broadcast_frame_preserving_witness :
    (broadcastRun [sampleRecord 1] [closedChannel 1, openChannel 2]
        (Event.videoDeleted "x")).1 =
      ([sampleRecord 1], [closedChannel 1, openChannel 2]) ∧
    (∀ d ∈ (broadcastRun [sampleRecord 1] [closedChannel 1, openChannel 2]
        (Event.videoDeleted "x")).2, d.1 ≠ closedChannel 1) ∧
    closedChannel 1 ∈ registryAfterBroadcast [closedChannel 1, openChannel 2] := by
  have h := broadcast_frame_preserving [sampleRecord 1]
    [closedChannel 1, openChannel 2] (Event.videoDeleted "x")
  have h2 := h.2.1 (closedChannel 1) (by decide) (by decide)
  exact ⟨h.1, h2.1, h2.2⟩

/-- Claim C9: in the cloud variant, a DELETE whose
`cloudinary.uploader.destroy` call reports `not found` still answers
200 `success:true` and broadcasts a `video_deleted` event carrying the
requested id; the send is attempted to every open registered channel
(and delivered to every open channel whose transport does not fail),
so viewers can receive deletion events for ids that were never listed. -/
theorem cloud_delete_not_found_broadcasts (videoId : String)
    (clients : List Channel) :
    cloudDeleteHandler (some "not found") videoId =
      (Resp.ok "Video deleted successfully" none,
       [Event.videoDeleted videoId]) ∧
    (∀ c ∈ clients, c.readyState = WS_OPEN →
      c ∈ broadcastAttempts clients ∧
      (c.sendFails = false →
        (c, Event.videoDeleted videoId) ∈
          broadcastDelivered clients (Event.videoDeleted videoId))) := by
  refine ⟨rfl, ?_⟩
  intro c hc hopen
  constructor
  · simp [broadcastAttempts, List.mem_filter, hc, hopen]
  · intro hfail
    unfold broadcastDelivered
    apply List.mem_map.mpr
    refine ⟨c, ?_, rfl⟩
    simp [List.mem_filter, hc, hopen, hfail]

/-- Witness for `cloud_delete_not_found_broadcasts` at a concrete id
and registry. -/
theorem cloud_delete_not_found_broadcasts_witness :
    cloudDeleteHandler (some "not found") "folder/clip7" =
      (Resp.ok "Video deleted successfully" none,
       [Event.videoDeleted "folder/clip7"]) ∧
    openChannel 2 ∈ broadcastAttempts [closedChannel 1, openChannel 2] ∧
    (openChannel 2, Event.videoDeleted "folder/clip7") ∈
      broadcastDelivered [closedChannel 1, openChannel 2]
        (Event.videoDeleted "folder/clip7") := by
  have h := cloud_delete_not_found_broadcasts "folder/clip7"
    [closedChannel 1, openChannel 2]
  have h2 := h.2 (openChannel 2) (by decide) (by decide)
  exact ⟨h.1, h2.1, h2.2 (by decide)⟩

/-- Claim C5 (divergence witness): the upload handler mutates `videos`
(`unshift` then `pop`) before the fallible `fs.unlinkSync` on the
evicted file; when that unlink throws, the `catch` block answers 500
`Failed to upload video` while the Catalog has already changed — the
new record is at the head and the oldest record is gone — and no
broadcast was emitted, contradicting the claim that on that 500
response the Catalog is in the same state as before the request. -/
theorem upload_unlink_failure_mutates_catalog :
    (uploadRequest (some (sampleFile "new")) none 999 "iso" true fullState).1 =
      Resp.serverError "Failed to upload video" ∧
    ((uploadRequest (some (sampleFile "new")) none 999 "iso" true
        fullState).2.1).videos ≠ fullState.videos ∧
    ((uploadRequest (some (sampleFile "new")) none 999 "iso" true
        fullState).2.1).videos.head? =
      some (mkVideoData (sampleFile "new") none 999 "iso") ∧
    sampleRecord 0 ∈ fullState.videos ∧
    sampleRecord 0 ∉ ((uploadRequest (some (sampleFile "new")) none 999 "iso"
        true fullState).2.1).videos ∧
    (uploadRequest (some (sampleFile "new")) none 999 "iso" true
        fullState).2.2 = [] := by
  decide

/-- Claim C6 (counterexample): the cloud variant configures multer with
no `fileFilter`, so a `text/plain` upload is not rejected before it
reaches the storage engine — it is passed through to the provider —
while the `fileFilter` of the local variant does reject it. -/
theorem cloud_accepts_text_plain_before_storage :
    multerFilterAccepts cloudMulterFilter textPlainFile = true ∧
    multerFilterAccepts localMulterFilter textPlainFile = false := by
  decide

/-- Claim C6 (amended): in the local variant an upload whose MIME type
does not start with `video/` is rejected by the `fileFilter` before
the file reaches storage (the non-multer `Error` makes the error
middleware answer 500 `Internal server error`), leaving the state —
catalog and stored files — unchanged and emitting no broadcast; the
cloud variant has no `fileFilter`, so the same file is accepted by
multer and handed to the storage engine. -/
theorem nonvideo_rejected_local_only (f : UploadedFile) (ts : Option String)
    (now : Nat) (iso : String) (uf : Bool) (st : LocalState)
    (h : localFileFilter f = false) :
    uploadRequest (some f) ts now iso uf st =
      (Resp.serverError "Internal server error", st, []) ∧
    multerFilterAccepts cloudMulterFilter f = true := by
  constructor
  · simp only [uploadRequest, multerFilterAccepts, localMulterFilter, h]
    simp
  · rfl

/-- Witness for `nonvideo_rejected_local_only` on a concrete
`text/plain` upload against a concrete 1-record state. -/
theorem nonvideo_rejected_local_only_witness :
    uploadRequest (some textPlainFile) none 7 "iso" false
        ⟨[sampleRecord 1], ["f1.mp4"]⟩ =
      (Resp.serverError "Internal server error",
       ⟨[sampleRecord 1], ["f1.mp4"]⟩, []) ∧
    multerFilterAccepts cloudMulterFilter textPlainFile = true :=
  nonvideo_rejected_local_only textPlainFile none 7 "iso" false
    ⟨[sampleRecord 1], ["f1.mp4"]⟩ (by decide)

/-- Claim C8 (counterexample): the local listing elements do not have
exactly the six claimed fields — the `videoData` objects the local
variant returns also carry a seventh key `filename`. -/
theorem local_listing_has_filename_field :
    (videoJson (sampleRecord 1)).map Prod.fst ≠
      ["id", "name", "url", "size", "mimetype", "timestamp"] ∧
    "filename" ∈ (videoJson (sampleRecord 1)).map Prod.fst := by
  decide

/-- Claim C8 (amended): `GET /api/videos` returns the listing as a
JSON array ordered newest first and capped at the applicable
limit (20 local — enforced at insertion time over every request trace
— and 30 cloud, the `max_results` of the provider query); each cloud
element has exactly the keys id, name, url, size, mimetype, timestamp
(with mimetype `video/` ++ format), while each local element has those
keys plus a seventh key `filename`. -/
theorem get_videos_shape (v : VideoRecord) (c : CloudResource)
    (resources : List CloudResource) (rs : List VideoRecord)
    (fs : List String) (hres : resources.length ≤ cloudMaxResults)
    (h20 : maxCatalogSize < rs.length) :
    (videoJson v).map Prod.fst =
      ["id", "name", "filename", "url", "size", "mimetype", "timestamp"] ∧
    (cloudVideoJson (cloudVideoOf c)).map Prod.fst =
      ["id", "name", "url", "size", "mimetype", "timestamp"] ∧
    (cloudVideoOf c).mimetype = "video/" ++ c.format ∧
    (cloudGetVideos resources).length ≤ cloudMaxResults ∧
    localGetVideos ⟨insertAll [] rs, fs⟩ = rs.reverse.take maxCatalogSize ∧
    (insertAll [] rs).length = maxCatalogSize := by
  have base := insertAll_eq rs [] (by simp [maxCatalogSize])
  rw [List.append_nil] at base
  refine ⟨rfl, rfl, rfl, ?_, ?_, ?_⟩
  · simpa [cloudGetVideos] using hres
  · simpa [localGetVideos] using base
  · rw [base, List.length_take, List.length_reverse]
    omega

/-- Witness for `get_videos_shape` at concrete inputs. -/
theorem get_videos_shape_witness :
    (videoJson (sampleRecord 1)).map Prod.fst =
      ["id", "name", "filename", "url", "size", "mimetype", "timestamp"] ∧
    (cloudVideoJson (cloudVideoOf sampleResource)).map Prod.fst =
      ["id", "name", "url", "size", "mimetype", "timestamp"] ∧
    (cloudVideoOf sampleResource).mimetype = "video/" ++ sampleResource.format ∧
    (cloudGetVideos [sampleResource]).length ≤ cloudMaxResults ∧
    localGetVideos ⟨insertAll [] (sampleUploads 25), []⟩ =
      ((sampleUploads 25).reverse).take maxCatalogSize ∧
    (insertAll [] (sampleUploads 25)).length = maxCatalogSize :=
  get_videos_shape (sampleRecord 1) sampleResource [sampleResource]
    (sampleUploads 25) [] (by decide)
    (by simp [sampleUploads, maxCatalogSize])

/-! ## Injectivity of the decimal rendering used by `genVideoId` -/

lemma toDigitsCore_eq_digits :
    ∀ (fuel n : Nat) (ds : List Char), 0 < n → n < fuel →
      Nat.toDigitsCore 10 fuel n ds =
        ((Nat.digits 10 n).map Nat.digitChar).reverse ++ ds := by
  intro fuel
  induction fuel with
  | zero => intro n ds hn hf; omega
  | succ fuel ih =>
      intro n ds hn hf
      have hd : Nat.digits 10 n = n % 10 :: Nat.digits 10 (n / 10) :=
        Nat.digits_def' (by norm_num) hn
      simp only [Nat.toDigitsCore]
      by_cases h10 : n / 10 = 0
      · rw [if_pos h10, hd, h10]
        simp
      · rw [if_neg h10]
        have hn' : 0 < n / 10 := Nat.pos_of_ne_zero h10
        have hlt : n / 10 < fuel := by
          have : n / 10 < n := Nat.div_lt_self hn (by norm_num)
          omega
        rw [ih (n / 10) (Nat.digitChar (n % 10) :: ds) hn' hlt, hd]
        simp

lemma repr_pos_eq (n : Nat) (hn : 0 < n) :
    Nat.repr n = (((Nat.digits 10 n).map Nat.digitChar).reverse).asString := by
  unfold Nat.repr Nat.toDigits
  rw [toDigitsCore_eq_digits (n + 1) n [] hn (Nat.lt_succ_self n),
    List.append_nil]

lemma digitChar_inj_lt :
    ∀ a, a < 10 → ∀ b, b < 10 → Nat.digitChar a = Nat.digitChar b → a = b := by
  decide

lemma map_digitChar_inj :
    ∀ l1 l2 : List Nat, (∀ x ∈ l1, x < 10) → (∀ x ∈ l2, x < 10) →
      l1.map Nat.digitChar = l2.map Nat.digitChar → l1 = l2 := by
  intro l1
  induction l1 with
  | nil =>
      intro l2 _ _ h
      cases l2 with
      | nil => rfl
      | cons b t2 => simp at h
  | cons a t ih =>
      intro l2 h1 h2 h
      cases l2 with
      | nil => simp at h
      | cons b t2 =>
          simp only [List.map_cons, List.cons.injEq] at h
          have hab : a = b :=
            digitChar_inj_lt a (h1 a (List.mem_cons_self a t))
              b (h2 b (List.mem_cons_self b t2)) h.1
          rw [hab, ih t2 (fun x hx => h1 x (List.mem_cons_of_mem a hx))
            (fun x hx => h2 x (List.mem_cons_of_mem b hx)) h.2]

lemma asString_inj (l1 l2 : List Char) (h : l1.asString = l2.asString) :
    l1 = l2 := by
  have := congrArg String.data h
  simpa [List.asString] using this

lemma digits_map_eq_of_repr_eq (m n : Nat) (hm : 0 < m) (hn : 0 < n)
    (h : Nat.repr m = Nat.repr n) : m = n := by
  rw [repr_pos_eq m hm, repr_pos_eq n hn] at h
  have h1 := List.reverse_injective (asString_inj _ _ h)
  have h2 := map_digitChar_inj (Nat.digits 10 m) (Nat.digits 10 n)
    (fun x hx => Nat.digits_lt_base (by norm_num) hx)
    (fun x hx => Nat.digits_lt_base (by norm_num) hx) h1
  calc m = Nat.ofDigits 10 (Nat.digits 10 m) := (Nat.ofDigits_digits 10 m).symm
    _ = Nat.ofDigits 10 (Nat.digits 10 n) := by rw [h2]
    _ = n := Nat.ofDigits_digits 10 n

lemma repr_ne_zero_of_pos (n : Nat) (hn : 0 < n) (h : Nat.repr 0 = Nat.repr n) :
    False := by
  have h0 : Nat.repr 0 = ([Nat.digitChar 0] : List Char).asString := rfl
  rw [h0, repr_pos_eq n hn] at h
  have h1 := asString_inj _ _ h
  have h2 : (Nat.digits 10 n).map Nat.digitChar = [Nat.digitChar 0] := by
    have := congrArg List.reverse h1
    simpa using this.symm
  have h3 := map_digitChar_inj (Nat.digits 10 n) [0]
    (fun x hx => Nat.digits_lt_base (by norm_num) hx)
    (by intro x hx; simp at hx; omega)
    (by simpa using h2)
  have h4 := Nat.ofDigits_digits 10 n
  rw [h3] at h4
  simp [Nat.ofDigits] at h4
  omega

lemma nat_repr_injective (m n : Nat) (h : Nat.repr m = Nat.repr n) : m = n := by
  rcases Nat.eq_zero_or_pos m with rfl | hm
  · rcases Nat.eq_zero_or_pos n with rfl | hn
    · rfl
    · exact absurd h (fun h => repr_ne_zero_of_pos n hn h)
  · rcases Nat.eq_zero_or_pos n with rfl | hn
    · exact absurd h.symm (fun h => repr_ne_zero_of_pos m hm h)
    · exact digits_map_eq_of_repr_eq m n hm hn h

lemma genVideoId_injective (t1 t2 : Nat) (h : genVideoId t1 = genVideoId t2) :
    t1 = t2 :=
  nat_repr_injective t1 t2 h

lemma removeVideo_some_sublist (id : String) (videos : List VideoRecord)
    (v : VideoRecord) (rest : List VideoRecord)
    (h : removeVideo id videos = some (v, rest)) :
    rest.Sublist videos := by
  unfold removeVideo at h
  cases hf : videos.findIdx? (fun v => v.id == id) with
  | none => rw [hf] at h; cases h
  | some i =>
      rw [hf] at h
      rcases Option.map_eq_some'.mp h with ⟨w, _, heq⟩
      cases heq
      exact List.eraseIdx_sublist videos i

/-- Claim C7 (counterexample): two uploads served in the same
millisecond both succeed and both receive the id
`Date.now().toString()` of that millisecond, leaving two distinct live
records with the same id in the catalog — the id generation is not
collision-resistant and uniqueness of `id` across live records does
not hold. -/
theorem same_millisecond_uploads_share_id :
    (uploadRequest (some (sampleFile "a")) none 555 "iso" false
        initialState).1 =
      Resp.ok "Video uploaded successfully"
        (some (mkVideoData (sampleFile "a") none 555 "iso")) ∧
    (uploadRequest (some (sampleFile "b")) none 555 "iso" false
        (uploadRequest (some (sampleFile "a")) none 555 "iso" false
          initialState).2.1).1 =
      Resp.ok "Video uploaded successfully"
        (some (mkVideoData (sampleFile "b") none 555 "iso")) ∧
    ((uploadRequest (some (sampleFile "b")) none 555 "iso" false
        (uploadRequest (some (sampleFile "a")) none 555 "iso" false
          initialState).2.1).2.1).videos =
      [mkVideoData (sampleFile "b") none 555 "iso",
       mkVideoData (sampleFile "a") none 555 "iso"] ∧
    (mkVideoData (sampleFile "b") none 555 "iso").id =
      (mkVideoData (sampleFile "a") none 555 "iso").id ∧
    mkVideoData (sampleFile "b") none 555 "iso" ≠
      mkVideoData (sampleFile "a") none 555 "iso" := by
  decide

/-- Claim C7 (amended): the local id is the millisecond
timestamp rendered in decimal, so uploads at two distinct milliseconds
always receive distinct ids (the rendering is injective), and the
catalog operations preserve id-uniqueness: a sequence of insertions of
records with pairwise-distinct ids leaves a catalog with
pairwise-distinct ids, and removal keeps the remaining ids distinct.
Uniqueness across live records therefore holds exactly when no two
live records were created in the same millisecond. -/
theorem distinct_milliseconds_give_unique_ids :
    (∀ (f1 f2 : UploadedFile) (ts1 ts2 : Option String) (iso1 iso2 : String)
        (t1 t2 : Nat), t1 ≠ t2 →
      (mkVideoData f1 ts1 t1 iso1).id ≠ (mkVideoData f2 ts2 t2 iso2).id) ∧
    (∀ rs : List VideoRecord, (rs.map VideoRecord.id).Nodup →
      ((insertAll [] rs).map VideoRecord.id).Nodup) ∧
    (∀ (id : String) (videos : List VideoRecord) (v : VideoRecord)
        (rest : List VideoRecord), (videos.map VideoRecord.id).Nodup →
      removeVideo id videos = some (v, rest) →
      (rest.map VideoRecord.id).Nodup) := by
  refine ⟨?_, ?_, ?_⟩
  · intro f1 f2 ts1 ts2 iso1 iso2 t1 t2 hne h
    exact hne (genVideoId_injective t1 t2 h)
  · intro rs hnd
    have base := insertAll_eq rs [] (by simp [maxCatalogSize])
    rw [List.append_nil] at base
    rw [base]
    have hsub : ((rs.reverse.take maxCatalogSize).map VideoRecord.id).Sublist
        ((rs.map VideoRecord.id).reverse) := by
      rw [← List.map_reverse]
      exact List.Sublist.map VideoRecord.id (List.take_sublist _ _)
    exact List.Nodup.sublist hsub (List.nodup_reverse.mpr hnd)
  · intro id videos v rest hnd hrm
    exact List.Nodup.sublist
      (List.Sublist.map VideoRecord.id (removeVideo_some_sublist id videos v rest hrm))
      hnd

/-- Witness for `distinct_milliseconds_give_unique_ids` at concrete
milliseconds 555 and 556 and a concrete 2-record catalog. -/
theorem distinct_milliseconds_give_unique_ids_witness :
    (mkVideoData (sampleFile "a") none 555 "iso").id ≠
      (mkVideoData (sampleFile "b") none 556 "iso").id ∧
    ((insertAll [] [sampleRecord 1, sampleRecord 2]).map VideoRecord.id).Nodup ∧
    (([sampleRecord 2].map VideoRecord.id)).Nodup := by
  refine ⟨?_, ?_, ?_⟩
  · exact distinct_milliseconds_give_unique_ids.1 (sampleFile "a")
      (sampleFile "b") none none "iso" "iso" 555 556 (by decide)
  · exact distinct_milliseconds_give_unique_ids.2.1
      [sampleRecord 1, sampleRecord 2] (by decide)
  · exact distinct_milliseconds_give_unique_ids.2.2 "1"
      [sampleRecord 1, sampleRecord 2] (sampleRecord 1) [sampleRecord 2]
      (by decide) (by decide)

end VideoHub
